import Mathlib

/-!
# Verification of the repository-analysis rule engine

Shallow embedding of the deterministic scoring / insight-generation engine of
the GitHub repository analyzer (`saas-app/src/lib/ai-engine.ts`).  JavaScript
strings are modelled by `String` over their character lists (ASCII-faithful),
JavaScript numbers by `Int`/`Nat` with exact rational arithmetic (`ℚ`) where
the source divides or multiplies by decimal weights, and the ambient clock
(`Date.now()`) by an explicit `now : Int` parameter (milliseconds).  The
optional Gemini enhancement is disabled (no API key), so `getAIInsights`
always returns the deterministic fallback; the embedding therefore wires
`generateFallbackInsights` directly into `analyzeRepository`.
-/

namespace RepoAnalyzer

/-! ## JavaScript string primitives (ASCII-faithful) -/

/-- `c.toLowerCase()` for a single character, ASCII range only (the engine
only ever compares ASCII patterns). -/
def jsToLowerChar (c : Char) : Char :=
  if 'A' ≤ c ∧ c ≤ 'Z' then Char.ofNat (c.toNat + 32) else c

/-- `s.toLowerCase()`. -/
def jsToLower (s : String) : String := String.mk (s.data.map jsToLowerChar)

/-- `s.includes(sub)`. -/
def jsIncludes (s sub : String) : Bool := s.data.tails.any (fun t => sub.data.isPrefixOf t)

/-- `s.startsWith(p)`. -/
def jsStartsWith (s p : String) : Bool := p.data.isPrefixOf s.data

/-- `s.endsWith(p)`. -/
def jsEndsWith (s p : String) : Bool := p.data.isSuffixOf s.data

/-- `Math.max(0, Math.min(100, x))` — the clamp every scorer applies. -/
def jsClamp (x : Int) : Int := max 0 (min 100 x)

/-- `Math.round x` for exact rationals: round half toward +∞. -/
def jsRound (x : ℚ) : Int := Int.floor (x + 1/2)

/-- `Math.round (p / q)` for an integer ratio with `q > 0`, computed purely
over `ℤ`: `⌊p/q + 1/2⌋ = (2p + q) / (2q)` (Euclidean division, which is
floor division for positive divisors).  `jsRoundRatio_eq` below proves it
agrees with `jsRound`. -/
def jsRoundRatio (p : Int) (q : Nat) : Int := (2 * p + q) / (2 * (q : Int))

/-- `Math.round (a / b * 100)` over naturals (`b > 0` at every use site). -/
def jsRoundPct (a b : Nat) : Nat := (2 * (a * 100) + b) / (2 * b)

/-! ## Data model (from `lib/github.ts`; fields the engine never reads are omitted) -/

structure Contributor where
  username : String
  contributions : Nat
  deriving Repr, DecidableEq

structure IssueData where
  state : String
  isPR : Bool
  deriving Repr, DecidableEq

structure FileTreeItem where
  path : String
  type : String  -- "file" | "dir"
  deriving Repr, DecidableEq

structure RepoData where
  fullName : String
  stars : Nat
  forks : Nat
  language : Option String
  languages : List (String × Nat)  -- insertion-ordered Record<string, number>
  pushedAt : Int                   -- new Date(pushedAt).getTime(), milliseconds
  topics : List String
  deriving Repr, DecidableEq

structure GitHubAnalysisInput where
  repo : RepoData
  contributors : List Contributor
  issues : List IssueData
  fileTree : List FileTreeItem
  readme : Option String
  hasLicense : Bool
  hasContributing : Bool
  hasChangelog : Bool
  hasCICD : Bool
  hasTests : Bool
  hasEnvExample : Bool
  hasDockerfile : Bool
  hasGitignore : Bool
  deriving Repr, DecidableEq

/-- JS truthiness of `input.readme` (`null` and `""` are falsy). -/
def readmeTruthy (r : Option String) : Bool :=
  match r with
  | none => false
  | some s => !s.isEmpty

/-- `input.repo.language || "Unknown"` (JS `||` treats `""` as falsy). -/
def jsOrString (o : Option String) (d : String) : String :=
  match o with
  | none => d
  | some s => if s.isEmpty then d else s

structure ScoreBreakdown where
  codeQuality : Int
  architecture : Int
  documentation : Int
  security : Int
  bestPractices : Int
  communityHealth : Int
  productionReadiness : Int
  overall : Int
  deriving Repr, DecidableEq

structure AIInsight where
  category : String
  severity : String  -- "critical" | "warning" | "info" | "success"
  title : String
  description : String
  suggestion : Option String
  deriving Repr, DecidableEq

structure TechStackItem where
  name : String
  category : String  -- "language" | "framework" | "tool" | ...
  confidence : ℚ
  deriving Repr, DecidableEq

structure MissingFile where
  name : String
  importance : String  -- "critical" | "recommended" | "nice-to-have"
  description : String
  deriving Repr, DecidableEq

/-! ## The seven dimension scorers (`ai-engine.ts`, rule engine phase) -/

def calculateCodeQualityScore (input : GitHubAnalysisInput) : Int :=
  let hasSrcDir := input.fileTree.any (fun f => jsStartsWith f.path "src/")
  let hasLibDir := input.fileTree.any (fun f => jsStartsWith f.path "lib/")
  let hasLinting := input.fileTree.any (fun f =>
    [".eslintrc", ".prettierrc", "eslint.config", ".flake8", "pyproject.toml", "rubocop"].any
      (fun lint => jsIncludes (jsToLower f.path) lint))
  let hasTypeScript := input.fileTree.any (fun f =>
    jsEndsWith f.path ".ts" || jsEndsWith f.path ".tsx")
  let hasTypeHints := input.fileTree.any (fun f =>
    jsIncludes f.path "py.typed" || jsEndsWith f.path ".pyi")
  let rootFiles := input.fileTree.filter (fun f => !jsIncludes f.path "/" && f.type == "file")
  jsClamp (50
    + (if hasSrcDir || hasLibDir then 10 else 0)
    + (if input.hasTests then 15 else 0)
    + (if hasLinting then 10 else 0)
    + (if hasTypeScript || hasTypeHints then 10 else 0)
    - (if rootFiles.length > 15 then 10 else 0))

/-- `f.path.split("/")[0]` -/
def jsSplitHead (s : String) : String := String.mk ((s.data.splitOn '/').headD [])

def goodDirs : List String :=
  ["src", "lib", "utils", "components", "services", "models", "controllers",
   "middleware", "config", "tests", "docs", "scripts", "public", "assets"]

def calculateArchitectureScore (input : GitHubAnalysisInput) : Int :=
  let dirs := (input.fileTree.filter (fun f => f.type == "dir")).map (fun f => jsSplitHead f.path)
  let foundGoodDirs := goodDirs.filter (fun d => dirs.contains d)
  let hasSeparation := dirs.contains "src" || (dirs.contains "frontend" && dirs.contains "backend")
  jsClamp (40
    + (foundGoodDirs.length : Int) * 5
    + (if hasSeparation then 15 else 0)
    + (if input.hasGitignore then 5 else 0))

def calculateDocumentationScore (input : GitHubAnalysisInput) : Int :=
  let readmePart : Int :=
    if readmeTruthy input.readme then
      let r := input.readme.getD ""
      let readmeLength := r.length
      let readme := jsToLower r
      (if readmeLength > 2000 then 30
       else if readmeLength > 500 then 20
       else if readmeLength > 100 then 10 else 0)
      + (if jsIncludes readme "installation" || jsIncludes readme "getting started" then 10 else 0)
      + (if jsIncludes readme "usage" || jsIncludes readme "example" then 10 else 0)
      + (if jsIncludes readme "api" || jsIncludes readme "documentation" then 5 else 0)
      + (if jsIncludes readme "contributing" then 5 else 0)
      + (if jsIncludes readme "license" then 5 else 0)
      + (if jsIncludes readme "badge" || jsIncludes readme "shield" then 5 else 0)
    else 0
  let hasDocs := input.fileTree.any (fun f => jsStartsWith f.path "docs/")
  jsClamp (0 + readmePart
    + (if input.hasContributing then 10 else 0)
    + (if input.hasChangelog then 10 else 0)
    + (if hasDocs then 10 else 0))

def lockFileNames : List String :=
  ["package-lock.json", "yarn.lock", "pnpm-lock.yaml", "Pipfile.lock", "Gemfile.lock", "poetry.lock"]

def calculateSecurityScore (input : GitHubAnalysisInput) : Int :=
  let hasSecurityPolicy := input.fileTree.any (fun f => jsIncludes (jsToLower f.path) "security")
  let hasLockFile := input.fileTree.any (fun f => lockFileNames.any (fun lock => f.path == lock))
  jsClamp (50
    + (if input.hasGitignore then 10 else 0)
    - (if !input.hasEnvExample && input.fileTree.any (fun f => jsIncludes f.path ".env")
       then 20 else 0)
    + (if input.hasEnvExample then 15 else 0)
    + (if hasSecurityPolicy then 10 else 0)
    + (if hasLockFile then 10 else 0)
    + (if input.hasGitignore then 5 else 0))

def calculateBestPracticesScore (input : GitHubAnalysisInput) : Int :=
  jsClamp (30
    + (if input.hasLicense then 15 else 0)
    + (if input.hasGitignore then 10 else 0)
    + (if input.hasTests then 15 else 0)
    + (if input.hasCICD then 15 else 0)
    + (if input.hasEnvExample then 5 else 0)
    + (if input.hasDockerfile then 5 else 0)
    + (if input.hasContributing then 5 else 0))

/-- The community-health scorer.  The source computes
`(Date.now() - new Date(input.repo.pushedAt).getTime()) / (1000*60*60*24)`;
the ambient clock `Date.now()` is the explicit parameter `now` here. -/
def calculateCommunityHealthScore (input : GitHubAnalysisInput) (now : Int) : Int :=
  let closedIssues := input.issues.filter (fun i => i.state == "closed" && !i.isPR)
  let openIssues := input.issues.filter (fun i => i.state == "open" && !i.isPR)
  -- daysSinceUpdate = (now - pushedAt) / 86400000; the `< 7/30/90` day tier
  -- checks below are scaled by the (positive) day length, which is exact.
  let msSinceUpdate : Int := now - input.repo.pushedAt
  jsClamp (30
    + (if input.contributors.length ≥ 5 then 20
       else if input.contributors.length ≥ 2 then 10 else 0)
    + (if input.repo.stars ≥ 100 then 15
       else if input.repo.stars ≥ 10 then 10
       else if input.repo.stars ≥ 1 then 5 else 0)
    + (if closedIssues.length > openIssues.length then 10 else 0)
    + (if msSinceUpdate < 7 * (1000 * 60 * 60 * 24) then 15
       else if msSinceUpdate < 30 * (1000 * 60 * 60 * 24) then 10
       else if msSinceUpdate < 90 * (1000 * 60 * 60 * 24) then 5 else 0)
    + (if input.repo.topics.length > 0 then 5 else 0))

def calculateProductionReadinessScore (input : GitHubAnalysisInput) : Int :=
  let hasVersioning := input.fileTree.any (fun f =>
    f.path == "package.json" || f.path == "setup.py" || f.path == "Cargo.toml")
  let hasErrorHandling := input.fileTree.any (fun f =>
    jsIncludes f.path "error" || jsIncludes f.path "exception" || jsIncludes f.path "middleware")
  let hasMonitoring := input.fileTree.any (fun f =>
    jsIncludes f.path "log" || jsIncludes f.path "monitor" || jsIncludes f.path "sentry")
  jsClamp (20
    + (if input.hasCICD then 20 else 0)
    + (if input.hasTests then 15 else 0)
    + (if input.hasDockerfile then 10 else 0)
    + (if input.hasEnvExample then 10 else 0)
    + (if input.hasGitignore then 5 else 0)
    + (if input.hasLicense then 5 else 0)
    + (if hasVersioning then 5 else 0)
    + (if hasErrorHandling then 5 else 0)
    + (if hasMonitoring then 5 else 0))

/-! ## Tech stack detection -/

structure Detector where
  pattern : String
  name : String
  category : String
  deriving Repr, DecidableEq

def frameworkDetectors : List Detector :=
  [⟨"next.config", "Next.js", "framework"⟩,
   ⟨"nuxt.config", "Nuxt.js", "framework"⟩,
   ⟨"angular.json", "Angular", "framework"⟩,
   ⟨"svelte.config", "Svelte", "framework"⟩,
   ⟨"vite.config", "Vite", "tool"⟩,
   ⟨"webpack.config", "Webpack", "tool"⟩,
   ⟨"tailwind.config", "Tailwind CSS", "framework"⟩,
   ⟨"django", "Django", "framework"⟩,
   ⟨"flask", "Flask", "framework"⟩,
   ⟨"fastapi", "FastAPI", "framework"⟩,
   ⟨"express", "Express.js", "framework"⟩,
   ⟨"rails", "Ruby on Rails", "framework"⟩,
   ⟨"spring", "Spring", "framework"⟩,
   ⟨"dockerfile", "Docker", "tool"⟩,
   ⟨"docker-compose", "Docker Compose", "tool"⟩,
   ⟨".github/workflows", "GitHub Actions", "ci-cd"⟩,
   ⟨"jest.config", "Jest", "testing"⟩,
   ⟨"vitest", "Vitest", "testing"⟩,
   ⟨"cypress", "Cypress", "testing"⟩,
   ⟨"pytest", "Pytest", "testing"⟩,
   ⟨"prisma", "Prisma", "database"⟩,
   ⟨"mongoose", "MongoDB/Mongoose", "database"⟩,
   ⟨".env", "dotenv", "tool"⟩]

/-- README keyword table (the `pattern` field holds the keyword). -/
def readmeDetectors : List Detector :=
  [⟨"react", "React", "framework"⟩,
   ⟨"vue", "Vue.js", "framework"⟩,
   ⟨"postgresql", "PostgreSQL", "database"⟩,
   ⟨"mongodb", "MongoDB", "database"⟩,
   ⟨"redis", "Redis", "database"⟩,
   ⟨"aws", "AWS", "cloud"⟩,
   ⟨"vercel", "Vercel", "cloud"⟩,
   ⟨"netlify", "Netlify", "cloud"⟩]

/-- `stack.some((s) => s.name === n)`. -/
def hasName (l : List TechStackItem) (n : String) : Bool := l.any (fun s => s.name == n)

/-- The language entries pushed first: one per `Object.keys(input.repo.languages)`. -/
def languageEntries (input : GitHubAnalysisInput) : List TechStackItem :=
  (input.repo.languages.map Prod.fst).map (fun lang => ⟨lang, "language", 0.9⟩)

/-- File-path pattern matches at confidence 0.8, in table order. -/
def frameworkEntries (input : GitHubAnalysisInput) : List TechStackItem :=
  let files := input.fileTree.map (fun f => jsToLower f.path)
  frameworkDetectors.filterMap (fun d =>
    if files.any (fun f => jsIncludes f d.pattern) then some ⟨d.name, d.category, 0.8⟩ else none)

/-- The README scan: `readmeDetectors.forEach(...)` pushing onto the evolving stack. -/
def readmePhase (input : GitHubAnalysisInput) (stack : List TechStackItem) :
    List TechStackItem :=
  if readmeTruthy input.readme then
    let readme := jsToLower (input.readme.getD "")
    readmeDetectors.foldl (fun st d =>
      if jsIncludes readme d.pattern && !hasName st d.name
      then st ++ [⟨d.name, d.category, 0.6⟩] else st) stack
  else stack

/-- The final dedup filter: `seen = new Set(); stack.filter(...)`. -/
def dedupeGo (seen : List String) : List TechStackItem → List TechStackItem
  | [] => []
  | x :: xs =>
    if seen.contains x.name then dedupeGo seen xs
    else x :: dedupeGo (x.name :: seen) xs

def dedupeByName (l : List TechStackItem) : List TechStackItem := dedupeGo [] l

def detectTechStack (input : GitHubAnalysisInput) : List TechStackItem :=
  dedupeByName (readmePhase input (languageEntries input ++ frameworkEntries input))

/-- Modelled from the spec (§4.2): README keyword matches at confidence 0.6,
in their fixed table order, added only for names not already on `stack`. -/
def readmeAdditions (input : GitHubAnalysisInput) (stack : List TechStackItem) :
    List TechStackItem :=
  if readmeTruthy input.readme then
    let readme := jsToLower (input.readme.getD "")
    readmeDetectors.filterMap (fun d =>
      if jsIncludes readme d.pattern && !hasName stack d.name then
        some ⟨d.name, d.category, 0.6⟩
      else none)
  else []

/-- Modelled from the spec (§4.2): one entry per declared language first,
then file-path pattern matches in table order (dropping names already used
by a language), then README keyword matches in table order for names not
already present. -/
def specTechStack (input : GitHubAnalysisInput) : List TechStackItem :=
  languageEntries input
    ++ (frameworkEntries input).filter (fun e => !hasName (languageEntries input) e.name)
    ++ readmeAdditions input (languageEntries input ++ frameworkEntries input)

/-! ## Missing file detection -/

def detectMissingFiles (input : GitHubAnalysisInput) : List MissingFile :=
  (if !input.hasLicense then
    [⟨"LICENSE", "critical",
      "No license file found. Without a license, your code is not legally open-source."⟩]
   else [])
  ++ (if !readmeTruthy input.readme then
    [⟨"README.md", "critical",
      "No README found. This is the first thing visitors see."⟩]
   else [])
  ++ (if !input.hasGitignore then
    [⟨".gitignore", "critical",
      "No .gitignore found. Sensitive files may be committed."⟩]
   else [])
  ++ (if !input.hasTests then
    [⟨"tests/", "critical",
      "No test directory found. Tests are essential for code reliability."⟩]
   else [])
  ++ (if !input.hasCICD then
    [⟨".github/workflows/", "recommended",
      "No CI/CD configuration found. Automate testing and deployment."⟩]
   else [])
  ++ (if !input.hasEnvExample then
    [⟨".env.example", "recommended",
      "No environment variable template. Helps new developers onboard."⟩]
   else [])
  ++ (if !input.hasContributing then
    [⟨"CONTRIBUTING.md", "recommended",
      "No contributing guide. Helps the community contribute properly."⟩]
   else [])
  ++ (if !input.hasChangelog then
    [⟨"CHANGELOG.md", "nice-to-have",
      "No changelog. Track version history for users."⟩]
   else [])
  ++ (if !input.hasDockerfile then
    [⟨"Dockerfile", "nice-to-have",
      "No Dockerfile. Containerization ensures consistent environments."⟩]
   else [])

/-! ## Fallback insight synthesizer (`generateFallbackInsights`)

The source pushes insights and suggestions onto two arrays inside one
sequence of conditional blocks; the embedding renders each block as a
(zero-or-one element) list and concatenates them in the source's order,
once for the insights array and once for the suggestions array. -/

def totalFilesOf (input : GitHubAnalysisInput) : Nat :=
  (input.fileTree.filter (fun f => f.type == "file")).length

def totalDirsOf (input : GitHubAnalysisInput) : Nat :=
  (input.fileTree.filter (fun f => f.type == "dir")).length

def langOf (input : GitHubAnalysisInput) : String := jsOrString input.repo.language "Unknown"

def languagesOf (input : GitHubAnalysisInput) : List String := input.repo.languages.map Prod.fst

/-- The extension histogram fold `reduce((acc, ext) => ..., {})` over an
insertion-ordered record. -/
def bumpCount : List (String × Nat) → String → List (String × Nat)
  | [], e => [(e, 1)]
  | (k, n) :: rest, e =>
    if k == e then (k, n + 1) :: rest else (k, n) :: bumpCount rest e

/-- Stable descending sort by count (`.sort((a, b) => b[1] - a[1])`,
Array.prototype.sort being stable). -/
def insertByCountDesc : List (String × Nat) → (String × Nat) → List (String × Nat)
  | [], x => [x]
  | y :: ys, x => if y.2 < x.2 then x :: y :: ys else y :: insertByCountDesc ys x

def sortByCountDesc (l : List (String × Nat)) : List (String × Nat) :=
  l.foldl insertByCountDesc []

/-- `f.path.split(".").pop()?.toLowerCase()` with the falsy filter. -/
def extensionsOf (input : GitHubAnalysisInput) : List String :=
  ((input.fileTree.filter (fun f => f.type == "file" && jsIncludes f.path ".")).map
    (fun f => jsToLower (String.mk ((f.path.data.splitOn '.').getLastD [])))).filter
    (fun e => !e.isEmpty)

def sortedExtsOf (input : GitHubAnalysisInput) : List (String × Nat) :=
  (sortByCountDesc (extensionsOf input |>.foldl bumpCount [])).take 5

def testFilesOf (input : GitHubAnalysisInput) : List FileTreeItem :=
  input.fileTree.filter (fun f =>
    f.type == "file" &&
      (jsIncludes f.path "test" || jsIncludes f.path "spec" || jsIncludes f.path "__tests__"))

/-- The language → test-framework lookup for the testing insight. -/
def testFrameworkFor (lang : String) : String :=
  if lang == "JavaScript" || lang == "TypeScript" then "Jest or Vitest"
  else if lang == "Python" then "Pytest"
  else if lang == "Java" then "JUnit 5"
  else if lang == "Go" then "the built-in testing package"
  else if lang == "Ruby" then "RSpec"
  else if lang == "PHP" then "PHPUnit"
  else if lang == "C#" then "xUnit or NUnit"
  else "a testing framework"

def pluralGt1 (n : Nat) : String := if n > 1 then "s" else ""

def pluralNe1 (n : Nat) : String := if n ≠ 1 then "s" else ""

/-- All rule-generated insights, in source evaluation order, before the
`slice(0, 8)` truncation. -/
def allInsights (input : GitHubAnalysisInput) (scores : ScoreBreakdown) : List AIInsight :=
  let lang := langOf input
  let totalFiles := totalFilesOf input
  let totalDirs := totalDirsOf input
  let languages := languagesOf input
  let sortedExts := sortedExtsOf input
  -- Testing analysis
  (if !input.hasTests then
    [⟨"testing", "critical", "No Test Suite Detected",
      "No test files found across " ++ toString totalFiles ++ " files. For a " ++ lang ++
        " project with " ++ toString input.contributors.length ++ " contributor" ++
        pluralGt1 input.contributors.length ++
        ", automated testing is essential to prevent regressions.",
      some ("Set up " ++ testFrameworkFor lang ++
        " and aim for at least 70% code coverage. Start by testing core business logic.")⟩]
   else
    let testFiles := testFilesOf input
    -- testFiles.length < totalFiles * 0.1, scaled by 10 (exact)
    if 10 * testFiles.length < totalFiles then
      [⟨"testing", "warning", "Low Test Coverage Indication",
        "Found " ++ toString testFiles.length ++ " test-related files out of " ++
          toString totalFiles ++ " total files (" ++
          toString (jsRoundPct testFiles.length totalFiles) ++
          "%). Consider expanding test coverage.",
        some "Increase test coverage by adding integration tests and edge case testing."⟩]
    else
      [⟨"testing", "success", "Test Suite Present",
        "Found " ++ toString testFiles.length ++
          " test-related files, indicating good testing practices in this " ++ lang ++
          " project.", none⟩])
  -- CI/CD analysis
  ++ (if !input.hasCICD then
    [⟨"architecture", "warning", "No CI/CD Pipeline Configured",
      "With " ++ toString input.contributors.length ++ " contributor" ++
        pluralGt1 input.contributors.length ++ " and " ++ toString input.repo.forks ++
        " fork" ++ pluralNe1 input.repo.forks ++
        ", automated pipelines would ensure consistent code quality.",
      some "Create a .github/workflows/ci.yml with build, test, and lint steps for every pull request."⟩]
   else
    [⟨"architecture", "success", "CI/CD Pipeline Active",
      "Continuous integration is configured, helping maintain code quality across contributions.",
      none⟩])
  -- License analysis
  ++ (if !input.hasLicense then
    [⟨"documentation", "critical", "Missing License File",
      "With " ++ toString input.repo.stars ++ " star" ++ pluralNe1 input.repo.stars ++
        " and " ++ toString input.repo.forks ++ " fork" ++ pluralNe1 input.repo.forks ++
        ", a license is critical for community contribution.",
      some "Add an MIT or Apache 2.0 license. Without one, the code is technically all-rights-reserved."⟩]
   else [])
  -- Documentation analysis
  ++ (if scores.documentation < 50 then
    let missingDocs : List String :=
      (if !readmeTruthy input.readme || (input.readme.getD "").length < 200 then
        ["comprehensive README"] else [])
      ++ (if !input.hasContributing then ["CONTRIBUTING.md"] else [])
      ++ (if !input.hasChangelog then ["CHANGELOG.md"] else [])
    [⟨"documentation", if scores.documentation < 30 then "critical" else "warning",
      "Documentation Below Standards",
      "Documentation score is " ++ toString scores.documentation ++ "/100. Missing: " ++
        (if missingDocs.isEmpty then "key sections in existing docs"
         else String.intercalate ", " missingDocs) ++ ".",
      some "Add installation steps, usage examples, API reference, and architecture overview to your README."⟩]
   else if scores.documentation ≥ 70 then
    [⟨"documentation", "success", "Good Documentation",
      "Documentation score of " ++ toString scores.documentation ++
        "/100 indicates well-maintained project docs.", none⟩]
   else [])
  -- Security analysis
  ++ (if scores.security < 60 then
    let secIssues : List String :=
      (if !input.hasEnvExample then ["no .env.example for secret management"] else [])
      ++ (if !input.hasGitignore then ["missing .gitignore (risk of committing secrets)"] else [])
    [⟨"security", if scores.security < 40 then "critical" else "warning",
      "Security Practices Need Attention",
      "Security score is " ++ toString scores.security ++ "/100. Issues: " ++
        (if secIssues.isEmpty then "review security configuration"
         else String.intercalate ", " secIssues) ++ ".",
      some "Add .env.example, SECURITY.md, and ensure all sensitive files are in .gitignore."⟩]
   else [])
  -- Architecture analysis based on project size
  ++ (if totalFiles > 100 then
    (if totalDirs < 5 then
      [⟨"architecture", "warning", "Flat Project Structure",
        toString totalFiles ++ " files in only " ++ toString totalDirs ++
          " directories suggests insufficient code organization.",
        some "Organize code into logical modules: src/, tests/, docs/, config/. Consider domain-driven structure."⟩]
     else [])
   else [])
  -- Language-specific insights
  ++ (if languages.length > 5 then
    [⟨"architecture", "info", "Multi-Language Project",
      "Uses " ++ toString languages.length ++ " languages (" ++
        String.intercalate ", " (languages.take 4) ++
        (if languages.length > 4 then "..." else "") ++
        "). Ensure consistent tooling and documentation across all.",
      some "Add language-specific linting rules and ensure each language has appropriate build tools configured."⟩]
   else [])
  -- Performance & dependency insights
  ++ (if input.fileTree.any (fun f => f.path == "package.json") then
    (if !(input.fileTree.any (fun f =>
        f.path == "package-lock.json" || f.path == "yarn.lock" || f.path == "pnpm-lock.yaml")) then
      [⟨"dependencies", "warning", "No Lock File Detected",
        "No package lock file found. This can lead to inconsistent dependency versions across environments.",
        some "Commit your package-lock.json, yarn.lock, or pnpm-lock.yaml to ensure reproducible builds."⟩]
     else [])
   else [])
  -- Docker analysis
  ++ (if !input.hasDockerfile && totalFiles > 20 then
    [⟨"architecture", "info", "No Containerization",
      "A " ++ lang ++ " project with " ++ toString totalFiles ++
        " files would benefit from Docker for consistent development and deployment environments.",
      some "Add a Dockerfile and docker-compose.yml for portable development and production deployment."⟩]
   else [])
  -- Contributor insights
  ++ (if input.contributors.length == 1 then
    [⟨"architecture", "info", "Solo Developer Project",
      "Single contributor with " ++ toString input.repo.stars ++ " star" ++
        pluralNe1 input.repo.stars ++
        ". Document architecture decisions to lower the bus factor.",
      some "Add ADR (Architecture Decision Records) and comprehensive onboarding docs for future contributors."⟩]
   else if input.contributors.length ≥ 5 then
    [⟨"architecture", "success", "Active Contributor Community",
      toString input.contributors.length ++
        " contributors indicates healthy project collaboration and community engagement.",
      none⟩]
   else [])
  -- File composition insights
  ++ (if !sortedExts.isEmpty then
    let primary := sortedExts.headD ("", 0)
    let pct := jsRoundPct primary.2 totalFiles
    (if pct > 80 then
      [⟨"architecture", "info",
        "Primarily ." ++ primary.1 ++ " Files (" ++ toString pct ++ "%)",
        toString primary.2 ++ " of " ++ toString totalFiles ++ " files are ." ++ primary.1 ++
          " files. Consider if supporting files (tests, configs, docs) are adequate.", none⟩]
     else [])
   else [])
  -- Strength-based insights
  ++ (if scores.overall ≥ 80 then
    [⟨"architecture", "success", "Well-Maintained Repository",
      "Overall score of " ++ toString scores.overall ++
        "/100 reflects strong engineering practices across code quality, docs, and security.",
      none⟩]
   else if scores.overall ≥ 60 then
    [⟨"architecture", "info", "Solid Foundation with Room to Grow",
      "Overall " ++ toString scores.overall ++
        "/100. Core structure is good — focus on the lowest-scoring areas for the biggest improvement.",
      none⟩]
   else [])

/-- The suggestions pushed by the rule blocks, in source order (testing,
CI/CD, documentation, security). -/
def ruleSuggestions (input : GitHubAnalysisInput) (scores : ScoreBreakdown) : List String :=
  (if !input.hasTests then
    ["Implement automated testing with " ++ testFrameworkFor (langOf input) ++
      " — focus on critical paths first."] else [])
  ++ (if !input.hasCICD then
    ["Set up GitHub Actions CI/CD to automate testing and deployment on every push."] else [])
  ++ (if scores.documentation < 50 then
    ["Improve documentation (currently " ++ toString scores.documentation ++
      "/100) — add setup guide, usage examples, and architecture overview."] else [])
  ++ (if scores.security < 60 then
    ["Address security concerns (score: " ++ toString scores.security ++
      "/100) — add environment variable templates and security policy."] else [])

/-- The fixed ordered backfill list (`contextSuggestions`). -/
def contextSuggestions (input : GitHubAnalysisInput) : List String :=
  [if input.repo.stars > 50 then "Add a code of conduct for your growing community."
   else "Add badges and screenshots to README to attract more contributors.",
   if totalFilesOf input > 50 then
     "Consider adding architectural documentation (diagrams, module overview)."
   else "Add inline code comments for complex logic.",
   if !input.hasDockerfile then "Containerize the application with Docker for portable deployment."
   else "Add health check endpoints for production monitoring.",
   if (languagesOf input).contains "TypeScript" || (languagesOf input).contains "JavaScript" then
     "Set up pre-commit hooks with Husky for linting and formatting."
   else "Add pre-commit hooks for automated code quality checks.",
   if input.contributors.length > 1 then
     "Create pull request templates to standardize code review."
   else "Document your development workflow for future collaborators.",
   "Set up code coverage reporting and aim for at least 70% coverage.",
   "Add performance benchmarks for critical code paths."]

/-- The backfill loop: `for (const s of contextSuggestions) { if (len >= 5)
break; if (!suggestions.includes(s)) suggestions.push(s); }`. -/
def backfillSuggestions : List String → List String → List String
  | [], s => s
  | c :: cs, s =>
    if s.length ≥ 5 then s
    else if c ∈ s then backfillSuggestions cs s
    else backfillSuggestions cs (s ++ [c])

def healthLabelOf (overall : Int) : String :=
  if overall ≥ 85 then "excellent"
  else if overall ≥ 70 then "good"
  else if overall ≥ 50 then "fair"
  else "needs improvement"

def strengthAreasOf (scores : ScoreBreakdown) : List String :=
  (if scores.codeQuality ≥ 70 then ["code quality"] else [])
  ++ (if scores.architecture ≥ 70 then ["architecture"] else [])
  ++ (if scores.documentation ≥ 70 then ["documentation"] else [])
  ++ (if scores.security ≥ 70 then ["security"] else [])
  ++ (if scores.bestPractices ≥ 70 then ["best practices"] else [])

def weakAreasOf (scores : ScoreBreakdown) : List String :=
  (if scores.codeQuality < 50 then ["code quality"] else [])
  ++ (if scores.architecture < 50 then ["architecture"] else [])
  ++ (if scores.documentation < 50 then ["documentation"] else [])
  ++ (if scores.security < 50 then ["security"] else [])
  ++ (if scores.bestPractices < 50 then ["best practices"] else [])

def fallbackSummary (input : GitHubAnalysisInput) (scores : ScoreBreakdown) : String :=
  let strengthAreas := strengthAreasOf scores
  let weakAreas := weakAreasOf scores
  input.repo.fullName ++ " is a " ++ langOf input ++ " repository with " ++
    toString (totalFilesOf input) ++ " files, " ++ toString input.contributors.length ++
    " contributor" ++ pluralGt1 input.contributors.length ++
    ", and an overall health score of " ++ toString scores.overall ++ "/100 (" ++
    healthLabelOf scores.overall ++ "). " ++
    (if strengthAreas.length > 0 then
      "Strong areas include " ++ String.intercalate ", " strengthAreas ++ "." else "") ++
    " " ++
    (if weakAreas.length > 0 then
      "Key areas for improvement: " ++ String.intercalate ", " weakAreas ++ "."
     else "The project follows solid engineering practices.")

structure FallbackResult where
  summary : String
  suggestions : List String
  insights : List AIInsight
  deriving Repr, DecidableEq

def generateFallbackInsights (input : GitHubAnalysisInput) (scores : ScoreBreakdown) :
    FallbackResult :=
  { summary := fallbackSummary input scores
    suggestions := (backfillSuggestions (contextSuggestions input)
      (ruleSuggestions input scores)).take 5
    insights := (allInsights input scores).take 8 }

/-! ## Main analysis function -/

structure AnalysisResult where
  scores : ScoreBreakdown
  insights : List AIInsight
  techStack : List TechStackItem
  missingFiles : List MissingFile
  aiSummary : String
  aiSuggestions : List String
  readmeScore : Int
  complexityLevel : String
  estimatedTeamSize : String
  repoHealth : String
  analyzedAt : Int  -- the clock value at analysis (ISO rendering omitted)
  aiPowered : Bool
  deriving Repr, DecidableEq

/-- `analyzeRepository` with the external AI enhancement disabled (no
`GEMINI_API_KEY`), so `getAIInsights` deterministically returns the
fallback with `aiPowered: false`.  `now` is the ambient clock
(`Date.now()`, milliseconds). -/
def analyzeRepository (input : GitHubAnalysisInput) (now : Int) : AnalysisResult :=
  let codeQuality := calculateCodeQualityScore input
  let architecture := calculateArchitectureScore input
  let documentation := calculateDocumentationScore input
  let security := calculateSecurityScore input
  let bestPractices := calculateBestPracticesScore input
  let communityHealth := calculateCommunityHealthScore input now
  let productionReadiness := calculateProductionReadinessScore input
  -- Math.round(cq*0.2 + ar*0.15 + doc*0.15 + sec*0.15 + bp*0.1 + ch*0.1 + pr*0.15)
  -- with the weights scaled by 100 (exact; `jsRoundRatio_eq` relates this to
  -- the rational rounding).
  let overall := jsRoundRatio (codeQuality * 20
    + architecture * 15
    + documentation * 15
    + security * 15
    + bestPractices * 10
    + communityHealth * 10
    + productionReadiness * 15) 100
  let scores : ScoreBreakdown :=
    { codeQuality, architecture, documentation, security, bestPractices,
      communityHealth, productionReadiness, overall }
  let aiResults := generateFallbackInsights input scores
  let techStack := detectTechStack input
  let missingFiles := detectMissingFiles input
  let totalFiles := (input.fileTree.filter (fun f => f.type == "file")).length
  let complexityLevel :=
    if totalFiles > 500 then "very-high"
    else if totalFiles > 100 then "high"
    else if totalFiles > 30 then "medium"
    else "low"
  let estimatedTeamSize :=
    if input.contributors.length ≥ 10 then "Large team (10+)"
    else if input.contributors.length ≥ 5 then "Medium team (5-10)"
    else if input.contributors.length ≥ 2 then "Small team (2-4)"
    else "Solo developer"
  let repoHealth :=
    if overall ≥ 85 then "excellent"
    else if overall ≥ 70 then "good"
    else if overall ≥ 50 then "fair"
    else if overall ≥ 30 then "needs-work"
    else "critical"
  { scores
    insights := aiResults.insights
    techStack
    missingFiles
    aiSummary := aiResults.summary
    aiSuggestions := aiResults.suggestions
    readmeScore := documentation
    complexityLevel
    estimatedTeamSize
    repoHealth
    analyzedAt := now
    aiPowered := false }

/-- A small snapshot exercising all three tech-stack phases: two declared
languages, a Next.js config file, and a README mentioning React. -/
def sampleTech : GitHubAnalysisInput :=
  { repo := { fullName := "t/t", stars := 0, forks := 0, language := none,
              languages := [("TypeScript", 10), ("JavaScript", 5)],
              pushedAt := 0, topics := [] },
    contributors := [], issues := [],
    fileTree := [⟨"next.config.js", "file"⟩],
    readme := some "built with react",
    hasLicense := false, hasContributing := false, hasChangelog := false, hasCICD := false,
    hasTests := false, hasEnvExample := false, hasDockerfile := false, hasGitignore := false }

/-! ## Concrete sample snapshots and spec-side definitions -/

/-- A fully empty snapshot (empty file tree, no README, no contributors). -/
def sampleEmpty : GitHubAnalysisInput :=
  { repo := { fullName := "a/b", stars := 0, forks := 0, language := none, languages := [],
              pushedAt := 0, topics := [] },
    contributors := [], issues := [], fileTree := [], readme := none,
    hasLicense := false, hasContributing := false, hasChangelog := false, hasCICD := false,
    hasTests := false, hasEnvExample := false, hasDockerfile := false, hasGitignore := false }

/-- Modelled from the spec (§4.6): recompute the overall score from the seven
dimension scores using the documented weights, rounded to the nearest
integer. -/
def specOverallScore (s : ScoreBreakdown) : Int :=
  jsRound ((s.codeQuality : ℚ) * 0.20 + (s.architecture : ℚ) * 0.15
    + (s.documentation : ℚ) * 0.15 + (s.security : ℚ) * 0.15
    + (s.bestPractices : ℚ) * 0.10 + (s.communityHealth : ℚ) * 0.10
    + (s.productionReadiness : ℚ) * 0.15)

/-- One row of the fixed missing-file priority table: which snapshot flag
makes the item present, its reported name, and its importance. -/
structure MissingSpec where
  present : GitHubAnalysisInput → Bool
  name : String
  importance : String

/-- Modelled from the spec (§4.3): the fixed priority-ordered catalog of
checked items with their importances. -/
def missingCatalog : List MissingSpec :=
  [⟨fun i => i.hasLicense, "LICENSE", "critical"⟩,
   ⟨fun i => readmeTruthy i.readme, "README.md", "critical"⟩,
   ⟨fun i => i.hasGitignore, ".gitignore", "critical"⟩,
   ⟨fun i => i.hasTests, "tests/", "critical"⟩,
   ⟨fun i => i.hasCICD, ".github/workflows/", "recommended"⟩,
   ⟨fun i => i.hasEnvExample, ".env.example", "recommended"⟩,
   ⟨fun i => i.hasContributing, "CONTRIBUTING.md", "recommended"⟩,
   ⟨fun i => i.hasChangelog, "CHANGELOG.md", "nice-to-have"⟩,
   ⟨fun i => i.hasDockerfile, "Dockerfile", "nice-to-have"⟩]

/-- A snapshot on which nine insight rules fire before the contributor rule:
over 100 files in no directories, six declared languages, a `package.json`
with no lock file, no tests/CI/license/README, and exactly one contributor. -/
def sampleBusFactor : GitHubAnalysisInput :=
  { repo := { fullName := "solo/big", stars := 0, forks := 0, language := none,
              languages := [("L1", 1), ("L2", 1), ("L3", 1), ("L4", 1), ("L5", 1), ("L6", 1)],
              pushedAt := 0, topics := [] },
    contributors := [⟨"solo", 1⟩],
    issues := [],
    fileTree := List.replicate 101 ⟨"f", "file"⟩ ++ [⟨"package.json", "file"⟩],
    readme := none,
    hasLicense := false, hasContributing := false, hasChangelog := false, hasCICD := false,
    hasTests := false, hasEnvExample := false, hasDockerfile := false, hasGitignore := false }

/-- A minimal snapshot with exactly one contributor. -/
def sampleSolo : GitHubAnalysisInput :=
  { sampleEmpty with contributors := [⟨"solo", 1⟩] }

/-- A minimal snapshot with six contributors. -/
def sampleSix : GitHubAnalysisInput :=
  { sampleEmpty with contributors :=
      [⟨"u1", 9⟩, ⟨"u2", 8⟩, ⟨"u3", 7⟩, ⟨"u4", 6⟩, ⟨"u5", 5⟩, ⟨"u6", 4⟩] }

/-- The keyword-bearing head of the scenario README. -/
def readmeStem : String :=
  "installation usage example api documentation contributing license badge shield getting started"

/-- The 2000-character README of the §8 scenario: the documentation keywords
followed by filler. -/
def sampleReadme : String := String.mk (readmeStem.data ++ List.replicate 1906 'a')

/-- The minimal snapshot of the §8 "well-equipped" scenario: `tests/` and a
CI workflow in the tree, license/gitignore/tests/CI flags set, the
2000-character README, six contributors, 150 stars, pushed two days before
the analysis instant (`now = 2 days`, `pushedAt = 0`). -/
def sampleWellEquipped : GitHubAnalysisInput :=
  { repo := { fullName := "acme/app", stars := 150, forks := 0, language := none,
              languages := [], pushedAt := 0, topics := [] },
    contributors := [⟨"u1", 9⟩, ⟨"u2", 8⟩, ⟨"u3", 7⟩, ⟨"u4", 6⟩, ⟨"u5", 5⟩, ⟨"u6", 4⟩],
    issues := [],
    fileTree := [⟨"tests", "dir"⟩, ⟨".github", "dir"⟩, ⟨".github/workflows", "dir"⟩,
                 ⟨".github/workflows/ci.yml", "file"⟩],
    readme := some sampleReadme,
    hasLicense := true, hasContributing := false, hasChangelog := false, hasCICD := true,
    hasTests := true, hasEnvExample := false, hasDockerfile := false, hasGitignore := true }

/-! ## Basic lemmas about the numeric helpers -/

theorem jsClamp_nonneg (x : Int) : 0 ≤ jsClamp x := le_max_left 0 _

theorem jsClamp_le_100 (x : Int) : jsClamp x ≤ 100 :=
  max_le (by norm_num) (min_le_left _ _)

theorem jsClamp_mono {x y : Int} (h : x ≤ y) : jsClamp x ≤ jsClamp y :=
  max_le_max le_rfl (min_le_min le_rfl h)

theorem le_jsClamp {c x : Int} (hc : c ≤ 100) (h : c ≤ x) : c ≤ jsClamp x :=
  le_max_of_le_right (le_min hc h)

/-- The integer-only rounded ratio agrees with rounding the exact rational. -/
theorem jsRoundRatio_eq (p : Int) (q : Nat) (hq : 0 < q) :
    jsRoundRatio p q = jsRound ((p : ℚ) / (q : ℚ)) := by
  have hq' : ((q : ℕ) : ℚ) ≠ 0 := by exact_mod_cast hq.ne'
  have h2 : (p : ℚ) / (q : ℚ) + 1/2 = ((2 * p + (q : ℤ) : ℤ) : ℚ) / ((2 * q : ℕ) : ℚ) := by
    push_cast
    field_simp
    ring
  rw [jsRound, h2, Rat.floor_intCast_div_natCast, jsRoundRatio]
  push_cast
  ring_nf

/-! ## C1 — determinism of the engine -/

/-- C1 (counterexample): the analysis function is *not* a function of the
snapshot alone: calling it on the identical snapshot at two different clock
instants (here: at the push instant and 100 days later) yields different
community-health scores (45 vs 30), because the scorer reads the ambient
clock (`Date.now()`) for its recency tiers. -/
theorem C1_determinism_ce :
    (analyzeRepository sampleEmpty 0).scores.communityHealth ≠
      (analyzeRepository sampleEmpty (100 * 86400000)).scores.communityHealth := by
  decide

/-- C1 (amended): with the external enhancement disabled, six of the seven
dimension scores, the tech-stack list and the missing-file list are functions
of the snapshot alone; the community-health score (and hence the overall
score and the fallback texts derived from it) additionally depends on the
clock instant of the call, and two calls at the same instant agree on the
entire result. -/
theorem C1_determinism (input : GitHubAnalysisInput) (t₁ t₂ : Int) :
    ((analyzeRepository input t₁).scores.codeQuality =
        (analyzeRepository input t₂).scores.codeQuality
      ∧ (analyzeRepository input t₁).scores.architecture =
        (analyzeRepository input t₂).scores.architecture
      ∧ (analyzeRepository input t₁).scores.documentation =
        (analyzeRepository input t₂).scores.documentation
      ∧ (analyzeRepository input t₁).scores.security =
        (analyzeRepository input t₂).scores.security
      ∧ (analyzeRepository input t₁).scores.bestPractices =
        (analyzeRepository input t₂).scores.bestPractices
      ∧ (analyzeRepository input t₁).scores.productionReadiness =
        (analyzeRepository input t₂).scores.productionReadiness
      ∧ (analyzeRepository input t₁).techStack = (analyzeRepository input t₂).techStack
      ∧ (analyzeRepository input t₁).missingFiles = (analyzeRepository input t₂).missingFiles)
    ∧ (t₁ = t₂ → analyzeRepository input t₁ = analyzeRepository input t₂) :=
  ⟨⟨rfl, rfl, rfl, rfl, rfl, rfl, rfl, rfl⟩, fun h => by rw [h]⟩

theorem C1_determinism_witness :
    (analyzeRepository sampleEmpty 0).scores.codeQuality =
        (analyzeRepository sampleEmpty 0).scores.codeQuality
      ∧ analyzeRepository sampleEmpty 0 = analyzeRepository sampleEmpty 0 :=
  ⟨(C1_determinism sampleEmpty 0 0).1.1, (C1_determinism sampleEmpty 0 0).2 rfl⟩

/-! ## C2 — range safety of all scores -/

/-- C2: for every snapshot (and clock instant), each of the seven dimension
scores and the derived overall score lies in [0, 100]. -/
theorem C2_score_ranges (input : GitHubAnalysisInput) (now : Int) :
    (0 ≤ (analyzeRepository input now).scores.codeQuality
      ∧ (analyzeRepository input now).scores.codeQuality ≤ 100)
    ∧ (0 ≤ (analyzeRepository input now).scores.architecture
      ∧ (analyzeRepository input now).scores.architecture ≤ 100)
    ∧ (0 ≤ (analyzeRepository input now).scores.documentation
      ∧ (analyzeRepository input now).scores.documentation ≤ 100)
    ∧ (0 ≤ (analyzeRepository input now).scores.security
      ∧ (analyzeRepository input now).scores.security ≤ 100)
    ∧ (0 ≤ (analyzeRepository input now).scores.bestPractices
      ∧ (analyzeRepository input now).scores.bestPractices ≤ 100)
    ∧ (0 ≤ (analyzeRepository input now).scores.communityHealth
      ∧ (analyzeRepository input now).scores.communityHealth ≤ 100)
    ∧ (0 ≤ (analyzeRepository input now).scores.productionReadiness
      ∧ (analyzeRepository input now).scores.productionReadiness ≤ 100)
    ∧ (0 ≤ (analyzeRepository input now).scores.overall
      ∧ (analyzeRepository input now).scores.overall ≤ 100) := by
  have hcq₁ : 0 ≤ calculateCodeQualityScore input := jsClamp_nonneg _
  have hcq₂ : calculateCodeQualityScore input ≤ 100 := jsClamp_le_100 _
  have har₁ : 0 ≤ calculateArchitectureScore input := jsClamp_nonneg _
  have har₂ : calculateArchitectureScore input ≤ 100 := jsClamp_le_100 _
  have hdo₁ : 0 ≤ calculateDocumentationScore input := jsClamp_nonneg _
  have hdo₂ : calculateDocumentationScore input ≤ 100 := jsClamp_le_100 _
  have hse₁ : 0 ≤ calculateSecurityScore input := jsClamp_nonneg _
  have hse₂ : calculateSecurityScore input ≤ 100 := jsClamp_le_100 _
  have hbp₁ : 0 ≤ calculateBestPracticesScore input := jsClamp_nonneg _
  have hbp₂ : calculateBestPracticesScore input ≤ 100 := jsClamp_le_100 _
  have hch₁ : 0 ≤ calculateCommunityHealthScore input now := jsClamp_nonneg _
  have hch₂ : calculateCommunityHealthScore input now ≤ 100 := jsClamp_le_100 _
  have hpr₁ : 0 ≤ calculateProductionReadinessScore input := jsClamp_nonneg _
  have hpr₂ : calculateProductionReadinessScore input ≤ 100 := jsClamp_le_100 _
  refine ⟨⟨hcq₁, hcq₂⟩, ⟨har₁, har₂⟩, ⟨hdo₁, hdo₂⟩, ⟨hse₁, hse₂⟩, ⟨hbp₁, hbp₂⟩,
    ⟨hch₁, hch₂⟩, ⟨hpr₁, hpr₂⟩, ?_, ?_⟩
  · show (0 : Int) ≤ jsRoundRatio (calculateCodeQualityScore input * 20
      + calculateArchitectureScore input * 15
      + calculateDocumentationScore input * 15
      + calculateSecurityScore input * 15
      + calculateBestPracticesScore input * 10
      + calculateCommunityHealthScore input now * 10
      + calculateProductionReadinessScore input * 15) 100
    unfold jsRoundRatio
    omega
  · show jsRoundRatio (calculateCodeQualityScore input * 20
      + calculateArchitectureScore input * 15
      + calculateDocumentationScore input * 15
      + calculateSecurityScore input * 15
      + calculateBestPracticesScore input * 10
      + calculateCommunityHealthScore input now * 10
      + calculateProductionReadinessScore input * 15) 100 ≤ 100
    unfold jsRoundRatio
    omega

/-! ## C3 — overall-score round trip -/

/-- C3: the overall score stored in the result equals the §4.6 weighted sum
of the seven dimension scores stored in the same result, rounded to the
nearest integer. -/
theorem C3_overall_roundtrip (input : GitHubAnalysisInput) (now : Int) :
    (analyzeRepository input now).scores.overall =
      specOverallScore (analyzeRepository input now).scores := by
  have h : ∀ a b c d e f g : Int,
      jsRoundRatio (a * 20 + b * 15 + c * 15 + d * 15 + e * 10 + f * 10 + g * 15) 100 =
        jsRound ((a : ℚ) * 0.20 + (b : ℚ) * 0.15 + (c : ℚ) * 0.15 + (d : ℚ) * 0.15
          + (e : ℚ) * 0.10 + (f : ℚ) * 0.10 + (g : ℚ) * 0.15) := by
    intro a b c d e f g
    rw [jsRoundRatio_eq _ 100 (by norm_num)]
    unfold jsRound
    congr 1
    push_cast
    ring_nf
  exact h (calculateCodeQualityScore input) (calculateArchitectureScore input)
    (calculateDocumentationScore input) (calculateSecurityScore input)
    (calculateBestPracticesScore input) (calculateCommunityHealthScore input now)
    (calculateProductionReadinessScore input)

/-! ## C10 — readmeScore mirrors the documentation score -/

/-- C10: the `readmeScore` field of the result always equals the
documentation dimension score in the same result's breakdown. -/
theorem C10_readmeScore (input : GitHubAnalysisInput) (now : Int) :
    (analyzeRepository input now).readmeScore =
      (analyzeRepository input now).scores.documentation := rfl

/-! ## C8 — monotonicity in the license and tests presence flags -/

/-- C8: setting the license flag (holding everything else fixed) never
decreases the best-practices or production-readiness scores, and setting the
tests flag never decreases the code-quality or best-practices scores. -/
theorem C8_presence_monotone (input : GitHubAnalysisInput) :
    calculateBestPracticesScore input ≤
        calculateBestPracticesScore { input with hasLicense := true }
    ∧ calculateProductionReadinessScore input ≤
        calculateProductionReadinessScore { input with hasLicense := true }
    ∧ calculateCodeQualityScore input ≤
        calculateCodeQualityScore { input with hasTests := true }
    ∧ calculateBestPracticesScore input ≤
        calculateBestPracticesScore { input with hasTests := true } := by
  refine ⟨?_, ?_, ?_, ?_⟩
  · apply jsClamp_mono
    have h : (if input.hasLicense then (15 : Int) else 0) ≤ 15 := by split <;> omega
    dsimp only
    simp only [if_true]
    linarith
  · apply jsClamp_mono
    have h : (if input.hasLicense then (5 : Int) else 0) ≤ 5 := by split <;> omega
    dsimp only
    simp only [if_true]
    linarith
  · apply jsClamp_mono
    have h : (if input.hasTests then (15 : Int) else 0) ≤ 15 := by split <;> omega
    dsimp only
    simp only [if_true]
    linarith
  · apply jsClamp_mono
    have h : (if input.hasTests then (15 : Int) else 0) ≤ 15 := by split <;> omega
    dsimp only
    simp only [if_true]
    linarith

/-! ## C5 — missing-file detector -/

theorem map_if_singleton_append (f : α → β) {c : Prop} [Decidable c] (a : α) (l : List α) :
    List.map f ((if c then [a] else []) ++ l) =
      if c then f a :: List.map f l else List.map f l := by
  split <;> simp

set_option maxRecDepth 4000 in
/-- C5: the missing-file list is exactly the fixed priority-ordered catalog
filtered to the absent items (one entry per absent item, catalog order,
catalog importances), and it never contains an entry for an item whose
presence flag (or README presence) is true. -/
theorem C5_missing_files (input : GitHubAnalysisInput) :
    ((detectMissingFiles input).map (fun m => (m.name, m.importance)) =
      (missingCatalog.filter (fun e => ! e.present input)).map
        (fun e => (e.name, e.importance)))
    ∧ ∀ m ∈ detectMissingFiles input, ∀ e ∈ missingCatalog,
        m.name = e.name → e.present input = false := by
  have hmain : (detectMissingFiles input).map (fun m => (m.name, m.importance)) =
      (missingCatalog.filter (fun e => ! e.present input)).map
        (fun e => (e.name, e.importance)) := by
    simp only [detectMissingFiles, missingCatalog, List.append_assoc,
      map_if_singleton_append, List.filter_cons, List.filter_nil,
      apply_ite (List.map (fun m : MissingFile => (m.name, m.importance))),
      apply_ite (List.map (fun e : MissingSpec => (e.name, e.importance))),
      List.map_cons, List.map_nil]
  refine ⟨hmain, ?_⟩
  intro m hm e he hname
  have hnodup : (missingCatalog.map (fun e => e.name)).Nodup := by
    simp [missingCatalog]
  have hpair : (m.name, m.importance) ∈
      (missingCatalog.filter (fun e => ! e.present input)).map
        (fun e => (e.name, e.importance)) := by
    rw [← hmain]
    exact List.mem_map_of_mem _ hm
  rcases List.mem_map.1 hpair with ⟨e', he', heq⟩
  rcases List.mem_filter.1 he' with ⟨he'cat, he'abs⟩
  have hnames : e'.name = e.name := by
    have := congrArg Prod.fst heq
    simpa using this.trans hname
  have : e' = e := List.inj_on_of_nodup_map hnodup he'cat he hnames
  subst this
  simpa using he'abs

/-! ## C7 — fallback synthesizer output caps -/

theorem nodup_length_le_of_subset {α : Type} [DecidableEq α] :
    ∀ {l s : List α}, l.Nodup → (∀ a ∈ l, a ∈ s) → l.length ≤ s.length := by
  intro l
  induction l with
  | nil => intro s _ _; simp
  | cons a t ih =>
    intro s hn hs
    have ha : a ∈ s := hs a (List.mem_cons_self a t)
    have ht : ∀ x ∈ t, x ∈ s.erase a := by
      intro x hx
      have hne : x ≠ a := by
        intro h; subst h; exact (List.nodup_cons.1 hn).1 hx
      exact (List.mem_erase_of_ne hne).2 (hs x (List.mem_cons_of_mem a hx))
    have := ih (List.nodup_cons.1 hn).2 ht
    have hlen := List.length_erase_of_mem ha
    have hpos : 0 < s.length := List.length_pos.2 (List.ne_nil_of_mem ha)
    simp only [List.length_cons]
    omega

theorem length_filter_add_length_filter_not {α : Type} (p : α → Bool) (l : List α) :
    (l.filter p).length + (l.filter (fun a => !(p a))).length = l.length := by
  induction l with
  | nil => simp
  | cons a t ih =>
    by_cases h : p a = true <;> simp [List.filter_cons, h] <;> omega

/-- Lower bound for the backfill loop: starting from `s`, it reaches at least
`min 5 (s.length + #fresh candidates)` suggestions. -/
theorem backfill_length_lower :
    ∀ (cs : List String) (s : List String), cs.Nodup →
      min 5 (s.length + (cs.filter (fun c => !(decide (c ∈ s)))).length) ≤
        (backfillSuggestions cs s).length := by
  intro cs
  induction cs with
  | nil => intro s _; simp [backfillSuggestions]
  | cons c cs ih =>
    intro s hn
    rw [backfillSuggestions]
    by_cases h5 : s.length ≥ 5
    · rw [if_pos h5]
      omega
    · rw [if_neg h5]
      by_cases hc : c ∈ s
      · rw [if_pos hc]
        have hfc : (c :: cs).filter (fun x => !(decide (x ∈ s))) =
            cs.filter (fun x => !(decide (x ∈ s))) := by
          simp [List.filter_cons, hc]
        rw [hfc]
        exact ih s (List.nodup_cons.1 hn).2
      · rw [if_neg hc]
        have hcn : c ∉ cs := (List.nodup_cons.1 hn).1
        have heq : cs.filter (fun x => !(decide (x ∈ s ++ [c]))) =
            cs.filter (fun x => !(decide (x ∈ s))) := by
          apply List.filter_congr
          intro x hx
          have hne : x ≠ c := by intro h; subst h; exact hcn hx
          simp [List.mem_append, hne]
        have := ih (s ++ [c]) (List.nodup_cons.1 hn).2
        rw [heq] at this
        have hlen : (s ++ [c]).length = s.length + 1 := by simp
        rw [hlen] at this
        have hfilter : ((c :: cs).filter (fun x => !(decide (x ∈ s)))).length =
            (cs.filter (fun x => !(decide (x ∈ s)))).length + 1 := by
          simp [List.filter_cons, hc]
        omega

/-- Upper bound for the backfill loop: it never pushes past five. -/
theorem backfill_length_upper :
    ∀ (cs : List String) (s : List String),
      (backfillSuggestions cs s).length ≤ max s.length 5 := by
  intro cs
  induction cs with
  | nil => intro s; simp [backfillSuggestions]
  | cons c cs ih =>
    intro s
    rw [backfillSuggestions]
    by_cases h5 : s.length ≥ 5
    · rw [if_pos h5]; omega
    · rw [if_neg h5]
      by_cases hc : c ∈ s
      · rw [if_pos hc]
        exact le_trans (ih s) le_rfl
      · rw [if_neg hc]
        have := ih (s ++ [c])
        simp only [List.length_append, List.length_singleton] at this
        omega

theorem contextSuggestions_nodup (input : GitHubAnalysisInput) :
    (contextSuggestions input).Nodup := by
  unfold contextSuggestions
  split <;> split <;> split <;> split <;> split <;> decide

theorem contextSuggestions_length (input : GitHubAnalysisInput) :
    (contextSuggestions input).length = 7 := by
  unfold contextSuggestions
  rfl

/-- C7: the synthesizer returns the first eight rule-generated insights (so at
most 8), at most five suggestions, and exactly five suggestions whenever at
least one rule-driven suggestion exists and backfill is needed (fewer than
five rule-driven suggestions). -/
theorem C7_output_caps (input : GitHubAnalysisInput) (scores : ScoreBreakdown) :
    (generateFallbackInsights input scores).insights = (allInsights input scores).take 8
    ∧ (generateFallbackInsights input scores).insights.length ≤ 8
    ∧ (generateFallbackInsights input scores).suggestions.length ≤ 5
    ∧ (ruleSuggestions input scores ≠ [] → (ruleSuggestions input scores).length < 5 →
        (generateFallbackInsights input scores).suggestions.length = 5) := by
  refine ⟨rfl, ?_, ?_, ?_⟩
  · show ((allInsights input scores).take 8).length ≤ 8
    simp [List.length_take]
  · show ((backfillSuggestions (contextSuggestions input)
      (ruleSuggestions input scores)).take 5).length ≤ 5
    simp [List.length_take]
  · intro _ hlt
    show ((backfillSuggestions (contextSuggestions input)
      (ruleSuggestions input scores)).take 5).length = 5
    set rs := ruleSuggestions input scores with hrs
    set cs := contextSuggestions input with hcs
    have hnodup : cs.Nodup := contextSuggestions_nodup input
    have hlen7 : cs.length = 7 := contextSuggestions_length input
    have hsplit := length_filter_add_length_filter_not (fun c => decide (c ∈ rs)) cs
    have hmem : (cs.filter (fun c => decide (c ∈ rs))).length ≤ rs.length := by
      apply nodup_length_le_of_subset (hnodup.filter _)
      intro a ha
      simpa using (List.of_mem_filter ha)
    have hlow := backfill_length_lower cs rs hnodup
    have hup := backfill_length_upper cs rs
    have h5 : (backfillSuggestions cs rs).length = 5 := by omega
    simp [List.length_take, h5]

theorem C7_output_caps_witness :
    (generateFallbackInsights sampleEmpty (analyzeRepository sampleEmpty 0).scores).insights =
      (allInsights sampleEmpty (analyzeRepository sampleEmpty 0).scores).take 8
    ∧ (generateFallbackInsights sampleEmpty
        (analyzeRepository sampleEmpty 0).scores).insights.length ≤ 8
    ∧ (generateFallbackInsights sampleEmpty
        (analyzeRepository sampleEmpty 0).scores).suggestions.length ≤ 5
    ∧ (generateFallbackInsights sampleEmpty
        (analyzeRepository sampleEmpty 0).scores).suggestions.length = 5 :=
  ⟨(C7_output_caps sampleEmpty _).1, (C7_output_caps sampleEmpty _).2.1,
   (C7_output_caps sampleEmpty _).2.2.1,
   (C7_output_caps sampleEmpty _).2.2.2 (by decide) (by decide)⟩

/-! ## C9 — contributor bus-factor insights -/

/-- C9 (counterexample): a snapshot with exactly one contributor whose
*returned* insights list contains no solo-developer insight at all — nine
earlier rules fire and the list is truncated to its first eight entries, so
the bus-factor insight generated by the contributor rule is cut off. -/
theorem C9_bus_factor_ce :
    sampleBusFactor.contributors.length = 1
    ∧ ∀ i ∈ (generateFallbackInsights sampleBusFactor
        (analyzeRepository sampleBusFactor 0).scores).insights,
        ¬(i.severity = "info" ∧ i.title = "Solo Developer Project") := by
  constructor
  · rfl
  · decide

/-- C9 (amended): the contributor rule always *generates* the claimed
insight — with exactly one contributor the full rule-evaluation sequence
(before the cap of eight) contains an informational "Solo Developer Project"
insight, and with at least five contributors a success-severity "Active
Contributor Community" insight; the returned (truncated) list can omit it
when eight or more insights precede it. -/
theorem C9_bus_factor (input : GitHubAnalysisInput) (scores : ScoreBreakdown) :
    (input.contributors.length = 1 →
      ∃ i ∈ allInsights input scores, i.severity = "info" ∧ i.title = "Solo Developer Project")
    ∧ (5 ≤ input.contributors.length →
      ∃ i ∈ allInsights input scores,
        i.severity = "success" ∧ i.title = "Active Contributor Community") := by
  constructor
  · intro h1
    refine ⟨⟨"architecture", "info", "Solo Developer Project",
      "Single contributor with " ++ toString input.repo.stars ++ " star" ++
        pluralNe1 input.repo.stars ++
        ". Document architecture decisions to lower the bus factor.",
      some "Add ADR (Architecture Decision Records) and comprehensive onboarding docs for future contributors."⟩,
      ?_, rfl, rfl⟩
    simp only [allInsights, List.mem_append]
    refine Or.inl (Or.inl (Or.inr ?_))
    simp [h1]
  · intro h5
    have h1' : (input.contributors.length == 1) = false := by
      simp
      omega
    refine ⟨⟨"architecture", "success", "Active Contributor Community",
      toString input.contributors.length ++
        " contributors indicates healthy project collaboration and community engagement.",
      none⟩, ?_, rfl, rfl⟩
    simp only [allInsights, List.mem_append]
    refine Or.inl (Or.inl (Or.inr ?_))
    simp [h1', h5]

theorem C9_bus_factor_witness :
    (∃ i ∈ allInsights sampleSolo (analyzeRepository sampleSolo 0).scores,
      i.severity = "info" ∧ i.title = "Solo Developer Project")
    ∧ (∃ i ∈ allInsights sampleSix (analyzeRepository sampleSix 0).scores,
      i.severity = "success" ∧ i.title = "Active Contributor Community") :=
  ⟨(C9_bus_factor sampleSolo _).1 (by decide),
   (C9_bus_factor sampleSix _).2 (by decide)⟩

/-! ## C4 — well-equipped-repository scenario -/

theorem analyzeRepository_repoHealth (input : GitHubAnalysisInput) (now : Int) :
    (analyzeRepository input now).repoHealth =
      (if (analyzeRepository input now).scores.overall ≥ 85 then "excellent"
       else if (analyzeRepository input now).scores.overall ≥ 70 then "good"
       else if (analyzeRepository input now).scores.overall ≥ 50 then "fair"
       else if (analyzeRepository input now).scores.overall ≥ 30 then "needs-work"
       else "critical") := rfl

/-- A list-of-characters infix of the left part of an append is found by the
JavaScript `includes` embedding on the appended string. -/
theorem jsIncludes_of_infix_left (pat : String) (a b : List Char)
    (h : pat.data <:+: a) : jsIncludes (String.mk (a ++ b)) pat = true := by
  rcases h with ⟨l₁, l₂, hsplit⟩
  unfold jsIncludes
  rw [List.any_eq_true]
  refine ⟨pat.data ++ (l₂ ++ b), ?_, ?_⟩
  · rw [List.mem_tails]
    exact ⟨l₁, by rw [← List.append_assoc, ← List.append_assoc, hsplit]⟩
  · rw [List.isPrefixOf_iff_prefix]
    exact List.prefix_append _ _

set_option maxRecDepth 2500 in
theorem sampleReadme_length : sampleReadme.length = 2000 := by
  show (readmeStem.data ++ List.replicate 1906 'a').length = 2000
  rw [List.length_append, List.length_replicate]
  decide

set_option maxRecDepth 4000 in
theorem sampleReadme_installation :
    jsIncludes (jsToLower sampleReadme) "installation" = true := by
  show jsIncludes (String.mk ((readmeStem.data ++ List.replicate 1906 'a').map jsToLowerChar))
    "installation" = true
  rw [List.map_append]
  apply jsIncludes_of_infix_left
  decide

set_option maxRecDepth 4000 in
theorem sampleReadme_usage : jsIncludes (jsToLower sampleReadme) "usage" = true := by
  show jsIncludes (String.mk ((readmeStem.data ++ List.replicate 1906 'a').map jsToLowerChar))
    "usage" = true
  rw [List.map_append]
  apply jsIncludes_of_infix_left
  decide

set_option maxRecDepth 4000 in
theorem sampleReadme_api : jsIncludes (jsToLower sampleReadme) "api" = true := by
  show jsIncludes (String.mk ((readmeStem.data ++ List.replicate 1906 'a').map jsToLowerChar))
    "api" = true
  rw [List.map_append]
  apply jsIncludes_of_infix_left
  decide

set_option maxRecDepth 4000 in
theorem sampleReadme_contributing :
    jsIncludes (jsToLower sampleReadme) "contributing" = true := by
  show jsIncludes (String.mk ((readmeStem.data ++ List.replicate 1906 'a').map jsToLowerChar))
    "contributing" = true
  rw [List.map_append]
  apply jsIncludes_of_infix_left
  decide

set_option maxRecDepth 4000 in
theorem sampleReadme_license : jsIncludes (jsToLower sampleReadme) "license" = true := by
  show jsIncludes (String.mk ((readmeStem.data ++ List.replicate 1906 'a').map jsToLowerChar))
    "license" = true
  rw [List.map_append]
  apply jsIncludes_of_infix_left
  decide

set_option maxRecDepth 4000 in
theorem sampleReadme_badge : jsIncludes (jsToLower sampleReadme) "badge" = true := by
  show jsIncludes (String.mk ((readmeStem.data ++ List.replicate 1906 'a').map jsToLowerChar))
    "badge" = true
  rw [List.map_append]
  apply jsIncludes_of_infix_left
  decide

theorem sampleReadme_not_empty : sampleReadme.isEmpty = false := by
  rw [Bool.eq_false_iff]
  intro h
  rw [String.isEmpty_iff] at h
  have := congrArg String.length h
  rw [sampleReadme_length] at this
  simp at this

theorem sampleWellEquipped_doc :
    calculateDocumentationScore sampleWellEquipped = 60 := by
  simp only [calculateDocumentationScore, sampleWellEquipped]
  simp only [readmeTruthy, sampleReadme_not_empty, Bool.not_false, if_true, Option.getD_some,
    sampleReadme_length, sampleReadme_installation, sampleReadme_usage, sampleReadme_api,
    sampleReadme_contributing, sampleReadme_license, sampleReadme_badge, Bool.true_or]
  decide

theorem sampleWellEquipped_overall :
    (analyzeRepository sampleWellEquipped (2 * 86400000)).scores.overall = 66 := by
  show jsRoundRatio (calculateCodeQualityScore sampleWellEquipped * 20
    + calculateArchitectureScore sampleWellEquipped * 15
    + calculateDocumentationScore sampleWellEquipped * 15
    + calculateSecurityScore sampleWellEquipped * 15
    + calculateBestPracticesScore sampleWellEquipped * 10
    + calculateCommunityHealthScore sampleWellEquipped (2 * 86400000) * 10
    + calculateProductionReadinessScore sampleWellEquipped * 15) 100 = 66
  rw [sampleWellEquipped_doc]
  decide

/-- C4 (counterexample): a snapshot satisfying every hypothesis of the
scenario whose best-practices score is 85 (< 90) and whose repo health is
"fair" (not "good"/"excellent"): the scenario's specified items only account
for 30+15+10+15+15 = 85 best-practices points. -/
theorem C4_scenario_ce :
    ((⟨"tests", "dir"⟩ : FileTreeItem) ∈ sampleWellEquipped.fileTree
      ∧ (⟨".github/workflows/ci.yml", "file"⟩ : FileTreeItem) ∈ sampleWellEquipped.fileTree
      ∧ sampleWellEquipped.hasLicense = true
      ∧ sampleWellEquipped.hasGitignore = true
      ∧ sampleWellEquipped.hasTests = true
      ∧ sampleWellEquipped.hasCICD = true
      ∧ sampleWellEquipped.readme = some sampleReadme
      ∧ sampleReadme.length = 2000
      ∧ jsIncludes (jsToLower sampleReadme) "installation" = true
      ∧ jsIncludes (jsToLower sampleReadme) "usage" = true
      ∧ sampleWellEquipped.contributors.length = 6
      ∧ sampleWellEquipped.repo.stars = 150
      ∧ (2 * 86400000 : Int) - sampleWellEquipped.repo.pushedAt = 2 * 86400000)
    ∧ (analyzeRepository sampleWellEquipped (2 * 86400000)).scores.bestPractices < 90
    ∧ (analyzeRepository sampleWellEquipped (2 * 86400000)).repoHealth = "fair" := by
  refine ⟨⟨by decide, by decide, rfl, rfl, rfl, rfl, rfl, sampleReadme_length,
    sampleReadme_installation, sampleReadme_usage, rfl, rfl, by decide⟩, by decide, ?_⟩
  simp only [analyzeRepository_repoHealth, sampleWellEquipped_overall]
  decide

/-- C4 (amended): for every snapshot of the scenario (tests/CI in the tree
and their flags set, license and gitignore flags set, a 2000-character README
containing "installation" and "usage", six contributors, 150 stars, pushed
two days before the analysis), the best-practices score is at least 85, the
community-health score is at least 75, and the repo health is "fair", "good"
or "excellent". -/
theorem C4_scenario (input : GitHubAnalysisInput) (now : Int) (r : String)
    (hTree1 : (⟨"tests", "dir"⟩ : FileTreeItem) ∈ input.fileTree)
    (hTree2 : (⟨".github/workflows/ci.yml", "file"⟩ : FileTreeItem) ∈ input.fileTree)
    (hLic : input.hasLicense = true) (hGit : input.hasGitignore = true)
    (hTests : input.hasTests = true) (hCICD : input.hasCICD = true)
    (hReadme : input.readme = some r) (hLen : r.length = 2000)
    (hInst : jsIncludes (jsToLower r) "installation" = true)
    (hUsage : jsIncludes (jsToLower r) "usage" = true)
    (hContrib : input.contributors.length = 6) (hStars : input.repo.stars = 150)
    (hPush : now - input.repo.pushedAt = 2 * 86400000) :
    85 ≤ (analyzeRepository input now).scores.bestPractices
    ∧ 75 ≤ (analyzeRepository input now).scores.communityHealth
    ∧ ((analyzeRepository input now).repoHealth = "fair"
      ∨ (analyzeRepository input now).repoHealth = "good"
      ∨ (analyzeRepository input now).repoHealth = "excellent") := by
  have hbp : (85 : Int) ≤ calculateBestPracticesScore input := by
    simp only [calculateBestPracticesScore]
    apply le_jsClamp (by norm_num)
    rw [hLic, hGit, hTests, hCICD]
    simp only [eq_self_iff_true, if_true]
    split_ifs <;> omega
  have hch : (80 : Int) ≤ calculateCommunityHealthScore input now := by
    simp only [calculateCommunityHealthScore]
    apply le_jsClamp (by norm_num)
    rw [hContrib, hStars, hPush]
    split_ifs <;> omega
  have hcq : (55 : Int) ≤ calculateCodeQualityScore input := by
    simp only [calculateCodeQualityScore]
    apply le_jsClamp (by norm_num)
    rw [hTests]
    simp only [eq_self_iff_true, if_true]
    split_ifs <;> omega
  have har : (45 : Int) ≤ calculateArchitectureScore input := by
    simp only [calculateArchitectureScore]
    apply le_jsClamp (by norm_num)
    rw [hGit]
    simp only [eq_self_iff_true, if_true]
    have hlen : (0 : Int) ≤ ((goodDirs.filter (fun d =>
      ((input.fileTree.filter (fun f => f.type == "dir")).map
        (fun f => jsSplitHead f.path)).contains d)).length : Int) := by positivity
    split_ifs <;> omega
  have hemp : r.isEmpty = false := by
    rw [Bool.eq_false_iff]
    intro hemp
    rw [String.isEmpty_iff] at hemp
    rw [hemp] at hLen
    simp at hLen
  have hdoc : (40 : Int) ≤ calculateDocumentationScore input := by
    simp only [calculateDocumentationScore]
    apply le_jsClamp (by norm_num)
    rw [hReadme]
    simp only [readmeTruthy, hemp, Bool.not_false, if_true, Option.getD_some]
    simp only [hLen, hInst, hUsage, Bool.true_or, eq_self_iff_true, if_true]
    norm_num
    split_ifs <;> omega
  have hsec : (45 : Int) ≤ calculateSecurityScore input := by
    simp only [calculateSecurityScore]
    apply le_jsClamp (by norm_num)
    rw [hGit]
    simp only [eq_self_iff_true, if_true]
    split_ifs <;> omega
  have hpr : (65 : Int) ≤ calculateProductionReadinessScore input := by
    simp only [calculateProductionReadinessScore]
    apply le_jsClamp (by norm_num)
    rw [hLic, hGit, hTests, hCICD]
    simp only [eq_self_iff_true, if_true]
    split_ifs <;> omega
  have hov : (50 : Int) ≤ (analyzeRepository input now).scores.overall := by
    show (50 : Int) ≤ jsRoundRatio (calculateCodeQualityScore input * 20
      + calculateArchitectureScore input * 15
      + calculateDocumentationScore input * 15
      + calculateSecurityScore input * 15
      + calculateBestPracticesScore input * 10
      + calculateCommunityHealthScore input now * 10
      + calculateProductionReadinessScore input * 15) 100
    unfold jsRoundRatio
    norm_num
    omega
  refine ⟨hbp, le_trans (by norm_num) hch, ?_⟩
  rw [analyzeRepository_repoHealth]
  split_ifs <;> first | omega | simp

theorem C4_scenario_witness :
    85 ≤ (analyzeRepository sampleWellEquipped (2 * 86400000)).scores.bestPractices
    ∧ 75 ≤ (analyzeRepository sampleWellEquipped (2 * 86400000)).scores.communityHealth
    ∧ ((analyzeRepository sampleWellEquipped (2 * 86400000)).repoHealth = "fair"
      ∨ (analyzeRepository sampleWellEquipped (2 * 86400000)).repoHealth = "good"
      ∨ (analyzeRepository sampleWellEquipped (2 * 86400000)).repoHealth = "excellent") :=
  C4_scenario sampleWellEquipped (2 * 86400000) sampleReadme
    (by decide) (by decide) rfl rfl rfl rfl rfl sampleReadme_length
    sampleReadme_installation sampleReadme_usage rfl rfl (by decide)

/-! ## C6 — tech-stack detector: order, confidences, deduplication -/

theorem contains_iff_mem (l : List String) (a : String) : l.contains a = true ↔ a ∈ l :=
  List.elem_iff

theorem hasName_true_iff (l : List TechStackItem) (n : String) :
    hasName l n = true ↔ n ∈ l.map (fun t => t.name) := by
  simp only [hasName, List.any_eq_true, List.mem_map, beq_iff_eq]

theorem hasName_eq_contains (l : List TechStackItem) (n : String) :
    hasName l n = (l.map (fun t => t.name)).contains n := by
  by_cases h : n ∈ l.map (fun t => t.name)
  · rw [(hasName_true_iff l n).2 h]
    exact ((contains_iff_mem _ _).2 h).symm
  · have h1 : hasName l n = false := by
      rw [Bool.eq_false_iff]
      intro hc
      exact h ((hasName_true_iff l n).1 hc)
    have h2 : (l.map (fun t => t.name)).contains n = false := by
      rw [Bool.eq_false_iff]
      intro hc
      exact h ((contains_iff_mem _ _).1 hc)
    rw [h1, h2]

theorem hasName_false_iff (l : List TechStackItem) (n : String) :
    hasName l n = false ↔ n ∉ l.map (fun t => t.name) := by
  rw [hasName_eq_contains]
  simp

/-- The README `forEach` push-loop appends exactly the additions that are new
relative to the starting stack, provided the detector names are distinct. -/
theorem foldl_push_eq (cond : Detector → Bool) :
    ∀ (ds : List Detector) (st : List TechStackItem),
      (ds.map (fun d => d.name)).Nodup →
      ds.foldl (fun st d => if cond d && !hasName st d.name
          then st ++ [⟨d.name, d.category, 0.6⟩] else st) st
        = st ++ ds.filterMap (fun d => if cond d && !hasName st d.name
            then some ⟨d.name, d.category, 0.6⟩ else none) := by
  intro ds
  induction ds with
  | nil => intro st _; simp
  | cons d ds ih =>
    intro st hn
    have hdn : d.name ∉ ds.map (fun d => d.name) := (List.nodup_cons.1 hn).1
    have hn' : (ds.map (fun d => d.name)).Nodup := (List.nodup_cons.1 hn).2
    rw [List.foldl_cons, List.filterMap_cons]
    by_cases hc : (cond d && !hasName st d.name) = true
    · rw [if_pos hc, if_pos hc, ih _ hn']
      have hcong : ds.filterMap (fun d' => if cond d' &&
            !hasName (st ++ [(⟨d.name, d.category, 0.6⟩ : TechStackItem)]) d'.name
          then some (⟨d'.name, d'.category, 0.6⟩ : TechStackItem) else none) =
          ds.filterMap (fun d' => if cond d' && !hasName st d'.name
            then some (⟨d'.name, d'.category, 0.6⟩ : TechStackItem) else none) := by
        apply List.filterMap_congr
        intro d' hd'
        have hne : d.name ≠ d'.name := by
          intro hcontra
          exact hdn (hcontra ▸ List.mem_map_of_mem (fun d => d.name) hd')
        have : hasName (st ++ [(⟨d.name, d.category, 0.6⟩ : TechStackItem)]) d'.name =
            hasName st d'.name := by
          simp only [hasName, List.any_append, List.any_cons, List.any_nil]
          have : ((⟨d.name, d.category, 0.6⟩ : TechStackItem).name == d'.name) = false := by
            simpa using hne
          simp [this]
        rw [this]
      rw [hcong]
      simp
    · rw [if_neg hc, if_neg hc, ih _ hn']

theorem dedupeGo_congr :
    ∀ (l : List TechStackItem) (s₁ s₂ : List String),
      (∀ n, n ∈ s₁ ↔ n ∈ s₂) → dedupeGo s₁ l = dedupeGo s₂ l := by
  intro l
  induction l with
  | nil => intro s₁ s₂ _; rfl
  | cons x xs ih =>
    intro s₁ s₂ h
    have hc : s₁.contains x.name = s₂.contains x.name := by
      by_cases hx : x.name ∈ s₁
      · have hx₂ : x.name ∈ s₂ := (h x.name).1 hx
        simp [contains_iff_mem, hx, hx₂]
      · have hx₂ : x.name ∉ s₂ := fun hh => hx ((h x.name).2 hh)
        simp [contains_iff_mem, hx, hx₂]
    rw [dedupeGo, dedupeGo, hc]
    by_cases h2 : s₂.contains x.name = true
    · rw [if_pos h2, if_pos h2]
      exact ih s₁ s₂ h
    · rw [if_neg h2, if_neg h2]
      congr 1
      apply ih
      intro n
      simp only [List.mem_cons]
      constructor
      · rintro (rfl | hn)
        · exact Or.inl rfl
        · exact Or.inr ((h n).1 hn)
      · rintro (rfl | hn)
        · exact Or.inl rfl
        · exact Or.inr ((h n).2 hn)

theorem dedupeGo_append :
    ∀ (l₁ l₂ : List TechStackItem) (seen : List String),
      dedupeGo seen (l₁ ++ l₂) =
        dedupeGo seen l₁ ++ dedupeGo (l₁.map (fun t => t.name) ++ seen) l₂ := by
  intro l₁
  induction l₁ with
  | nil =>
    intro l₂ seen
    simp only [List.nil_append, List.map_nil]
    rfl
  | cons x xs ih =>
    intro l₂ seen
    rw [List.cons_append, dedupeGo, dedupeGo]
    by_cases hx : seen.contains x.name = true
    · rw [if_pos hx, if_pos hx, ih]
      congr 1
      apply dedupeGo_congr
      intro n
      have hxs : x.name ∈ seen := by
        simpa [contains_iff_mem] using hx
      simp only [List.map_cons, List.cons_append, List.mem_cons, List.mem_append]
      constructor
      · rintro (h | h) <;> tauto
      · rintro (rfl | h | h) <;> tauto
    · rw [if_neg hx, if_neg hx, ih, List.cons_append]
      congr 2
      apply dedupeGo_congr
      intro n
      simp only [List.map_cons, List.cons_append, List.mem_cons, List.mem_append]
      tauto

theorem dedupeGo_eq_self :
    ∀ (l : List TechStackItem) (seen : List String),
      ((l.map (fun t => t.name)).Nodup) → (∀ t ∈ l, t.name ∉ seen) →
      dedupeGo seen l = l := by
  intro l
  induction l with
  | nil => intro seen _ _; rfl
  | cons x xs ih =>
    intro seen hn hs
    have hx : seen.contains x.name = false := by
      have := hs x (List.mem_cons_self x xs)
      simpa [contains_iff_mem] using this
    rw [dedupeGo, hx]
    simp only [Bool.false_eq_true, if_false]
    congr 1
    apply ih
    · exact (List.nodup_cons.1 hn).2
    · intro t ht
      have h1 : t.name ∉ seen := hs t (List.mem_cons_of_mem x ht)
      have h2 : t.name ≠ x.name := by
        intro hcontra
        have := (List.nodup_cons.1 hn).1
        exact this (List.mem_map.2 ⟨t, ht, hcontra⟩)
      simp [List.mem_cons, h1, h2]

theorem dedupeGo_eq_filter :
    ∀ (l : List TechStackItem) (seen : List String),
      ((l.map (fun t => t.name)).Nodup) →
      dedupeGo seen l = l.filter (fun t => !seen.contains t.name) := by
  intro l
  induction l with
  | nil => intro seen _; rfl
  | cons x xs ih =>
    intro seen hn
    rw [dedupeGo, List.filter_cons]
    by_cases hx : seen.contains x.name = true
    · rw [if_pos hx]
      simp only [hx, Bool.not_true, Bool.false_eq_true, if_false]
      exact ih seen (List.nodup_cons.1 hn).2
    · rw [if_neg hx]
      have hx' : seen.contains x.name = false := by
        simpa using hx
      simp only [hx', Bool.not_false, if_true]
      congr 1
      rw [ih _ (List.nodup_cons.1 hn).2]
      apply List.filter_congr
      intro t ht
      have h2 : t.name ≠ x.name := by
        intro hcontra
        have := (List.nodup_cons.1 hn).1
        exact this (List.mem_map.2 ⟨t, ht, hcontra⟩)
      simp [contains_iff_mem, List.mem_cons, h2]

theorem dedupeGo_names_nodup :
    ∀ (l : List TechStackItem) (seen : List String),
      (((dedupeGo seen l).map (fun t => t.name)).Nodup)
      ∧ ∀ t ∈ dedupeGo seen l, t.name ∉ seen := by
  intro l
  induction l with
  | nil => intro seen; exact ⟨List.nodup_nil, by simp [dedupeGo]⟩
  | cons x xs ih =>
    intro seen
    rw [dedupeGo]
    by_cases hx : seen.contains x.name = true
    · rw [if_pos hx]
      exact ih seen
    · rw [if_neg hx]
      rcases ih (x.name :: seen) with ⟨ihn, ihs⟩
      constructor
      · simp only [List.map_cons, List.nodup_cons]
        refine ⟨?_, ihn⟩
        intro hmem
        rcases List.mem_map.1 hmem with ⟨t, ht, hteq⟩
        exact ihs t ht (hteq ▸ List.mem_cons_self _ _)
      · intro t ht
        rcases List.mem_cons.1 ht with rfl | ht'
        · simpa [contains_iff_mem] using hx
        · exact fun hmem => ihs t ht' (List.mem_cons_of_mem _ hmem)

/-- Names of the if-filterMap over a detector table form a sublist of the
table's names. -/
theorem filterMap_if_names_sublist (ds : List Detector) (p : Detector → Bool) (c : ℚ) :
    ((ds.filterMap (fun d => if p d then
        some (⟨d.name, d.category, c⟩ : TechStackItem) else none)).map
      (fun t => t.name)).Sublist (ds.map (fun d => d.name)) := by
  induction ds with
  | nil => simp
  | cons d ds ih =>
    rw [List.filterMap_cons, List.map_cons]
    by_cases hp : p d = true
    · rw [if_pos hp]
      exact List.Sublist.cons₂ _ ih
    · rw [if_neg hp]
      exact List.Sublist.cons _ ih

theorem languageEntries_names (input : GitHubAnalysisInput) :
    (languageEntries input).map (fun t => t.name) = input.repo.languages.map Prod.fst := by
  simp [languageEntries, List.map_map]

theorem frameworkEntries_names_nodup (input : GitHubAnalysisInput) :
    ((frameworkEntries input).map (fun t => t.name)).Nodup := by
  have hsub := filterMap_if_names_sublist frameworkDetectors
    (fun d => (input.fileTree.map (fun f => jsToLower f.path)).any
      (fun f => jsIncludes f d.pattern)) 0.8
  exact hsub.nodup (by decide)

theorem readmeAdditions_names_nodup (input : GitHubAnalysisInput)
    (stack : List TechStackItem) :
    ((readmeAdditions input stack).map (fun t => t.name)).Nodup := by
  unfold readmeAdditions
  by_cases hr : readmeTruthy input.readme = true
  · rw [if_pos hr]
    have hsub := filterMap_if_names_sublist readmeDetectors
      (fun d => jsIncludes (jsToLower (input.readme.getD "")) d.pattern
        && !hasName stack d.name) 0.6
    exact hsub.nodup (by decide)
  · rw [if_neg hr]
    exact List.nodup_nil

theorem readmeAdditions_new (input : GitHubAnalysisInput) (stack : List TechStackItem) :
    ∀ t ∈ readmeAdditions input stack, hasName stack t.name = false := by
  intro t ht
  unfold readmeAdditions at ht
  by_cases hr : readmeTruthy input.readme = true
  · rw [if_pos hr] at ht
    rcases List.mem_filterMap.1 ht with ⟨d, _, hd⟩
    by_cases hc : (jsIncludes (jsToLower (input.readme.getD "")) d.pattern
        && !hasName stack d.name) = true
    · rw [if_pos hc] at hd
      rw [Bool.and_eq_true] at hc
      rcases hc with ⟨_, hnew⟩
      cases hd
      simpa using hnew
    · rw [if_neg hc] at hd
      cases hd
  · rw [if_neg hr] at ht
    cases ht

set_option maxHeartbeats 1000000 in
/-- C6: the tech-stack list has pairwise-distinct names, and equals: one
entry per declared language at confidence 0.9 first, then file-path pattern
matches at confidence 0.8 in table order (names not already used by a
language), then README keyword matches at confidence 0.6 in table order
(names not already present). -/
theorem C6_tech_stack (input : GitHubAnalysisInput)
    (h : (input.repo.languages.map Prod.fst).Nodup) :
    ((detectTechStack input).map (fun t => t.name)).Nodup
    ∧ detectTechStack input = specTechStack input
    ∧ (∀ t ∈ languageEntries input, t.category = "language" ∧ t.confidence = 0.9)
    ∧ (∀ t ∈ frameworkEntries input, t.confidence = 0.8)
    ∧ (∀ t ∈ readmeAdditions input (languageEntries input ++ frameworkEntries input),
        t.confidence = 0.6) := by
  have hLnames : (languageEntries input).map (fun t => t.name) =
      input.repo.languages.map Prod.fst := languageEntries_names input
  have hLnodup : ((languageEntries input).map (fun t => t.name)).Nodup := by
    rw [hLnames]; exact h
  have hFnodup := frameworkEntries_names_nodup input
  have hfold : readmePhase input (languageEntries input ++ frameworkEntries input) =
      (languageEntries input ++ frameworkEntries input)
        ++ readmeAdditions input (languageEntries input ++ frameworkEntries input) := by
    unfold readmePhase readmeAdditions
    by_cases hr : readmeTruthy input.readme = true
    · rw [if_pos hr, if_pos hr]
      exact foldl_push_eq _ readmeDetectors _ (by decide)
    · rw [if_neg hr, if_neg hr]
      simp
  have hkey : detectTechStack input =
      dedupeGo [] ((languageEntries input ++ frameworkEntries input)
        ++ readmeAdditions input (languageEntries input ++ frameworkEntries input)) := by
    rw [detectTechStack, dedupeByName, hfold]
  refine ⟨?_, ?_, ?_, ?_, ?_⟩
  · rw [detectTechStack, dedupeByName]
    exact (dedupeGo_names_nodup _ _).1
  · rw [hkey, dedupeGo_append, dedupeGo_append]
    have h1 : dedupeGo [] (languageEntries input) = languageEntries input :=
      dedupeGo_eq_self _ _ hLnodup (by simp)
    have h2 : dedupeGo ((languageEntries input).map (fun t => t.name) ++ [])
        (frameworkEntries input) =
        (frameworkEntries input).filter (fun e => !hasName (languageEntries input) e.name) := by
      rw [List.append_nil, dedupeGo_eq_filter _ _ hFnodup]
      apply List.filter_congr
      intro t _
      rw [hasName_eq_contains]
    have h3 : dedupeGo (((languageEntries input ++ frameworkEntries input).map
          (fun t => t.name)) ++ [])
        (readmeAdditions input (languageEntries input ++ frameworkEntries input)) =
        readmeAdditions input (languageEntries input ++ frameworkEntries input) := by
      rw [List.append_nil]
      apply dedupeGo_eq_self _ _ (readmeAdditions_names_nodup input _)
      intro t ht
      have := readmeAdditions_new input _ t ht
      exact (hasName_false_iff _ _).1 this
    rw [h1, h2, h3, specTechStack]
  · intro t ht
    rcases List.mem_map.1 ht with ⟨lang, _, rfl⟩
    exact ⟨rfl, rfl⟩
  · intro t ht
    rcases List.mem_filterMap.1 ht with ⟨d, _, hd⟩
    by_cases hc : ((input.fileTree.map (fun f => jsToLower f.path)).any
        (fun f => jsIncludes f d.pattern)) = true
    · rw [if_pos hc] at hd
      cases hd
      rfl
    · rw [if_neg hc] at hd
      cases hd
  · intro t ht
    unfold readmeAdditions at ht
    by_cases hr : readmeTruthy input.readme = true
    · rw [if_pos hr] at ht
      rcases List.mem_filterMap.1 ht with ⟨d, _, hd⟩
      by_cases hc : (jsIncludes (jsToLower (input.readme.getD "")) d.pattern
          && !hasName (languageEntries input ++ frameworkEntries input) d.name) = true
      · rw [if_pos hc] at hd
        cases hd
        rfl
      · rw [if_neg hc] at hd
        cases hd
    · rw [if_neg hr] at ht
      cases ht

theorem C6_tech_stack_witness :
    ((detectTechStack sampleTech).map (fun t => t.name)).Nodup
    ∧ detectTechStack sampleTech = specTechStack sampleTech
    ∧ (∀ t ∈ languageEntries sampleTech, t.category = "language" ∧ t.confidence = 0.9)
    ∧ (∀ t ∈ frameworkEntries sampleTech, t.confidence = 0.8)
    ∧ (∀ t ∈ readmeAdditions sampleTech (languageEntries sampleTech ++ frameworkEntries sampleTech),
        t.confidence = 0.6) :=
  C6_tech_stack sampleTech (by decide)

end RepoAnalyzer
